import Mathlib

/-!
Verification of `estimate-battery-parameters.py` (eigenein/fennec).

Shallow embedding conventions:
- Python `float` values (kWh energies, efficiencies) are modelled as exact
  rationals `ℚ`; the classification epsilon `0.001` is the rational `1/1000`.
- `datetime` timestamps are modelled as rational seconds since an arbitrary
  epoch, and `timedelta` durations as rational seconds, so that
  `timedelta.total_seconds() / 3600.0` becomes division by `3600`.
- Python float division raises `ZeroDivisionError` on a zero divisor; it is
  modelled by `fdiv` returning `Option ℚ`, with `none` standing for the
  raised exception.
-/

namespace Fennec

/-- Python float division `a / b`: raises `ZeroDivisionError` when `b == 0`,
modelled as `none`. -/
def fdiv (a b : ℚ) : Option ℚ :=
  if b = 0 then none else some (a / b)

/-- The four accumulator buckets distinguished by the classification loop in
`main` (`charging_stats`, `discharging_stats`, `idling_stats`, `mixed_stats`;
the source's `WorkingMode` enum itself lists only the first three and is
never consulted by the loop). -/
inductive Mode where
  | charging
  | discharging
  | idling
  | mixed
deriving DecidableEq

/-- Dataclass `Delta`: `duration` (seconds), `charge`, `imported`, `exported`
(kWh), in the source's declaration order. -/
structure Delta where
  duration : ℚ
  charge : ℚ
  imported : ℚ
  exported : ℚ
deriving DecidableEq

/-- Default-constructed `Delta()`: zero duration and zero energies. -/
def Delta.zero : Delta := ⟨0, 0, 0, 0⟩

/-- Method `Delta.__add__`: component-wise addition of all four fields. -/
def Delta.add (a b : Delta) : Delta :=
  ⟨a.duration + b.duration, a.charge + b.charge,
   a.imported + b.imported, a.exported + b.exported⟩

/-- Property `Delta.total_hours`: `duration.total_seconds() / 3600.0`. -/
def Delta.total_hours (d : Delta) : ℚ :=
  d.duration / 3600

/-- Property `Delta.is_importing`: `imported >= 0.001`. -/
def Delta.is_importing (d : Delta) : Bool :=
  decide ((1 / 1000 : ℚ) ≤ d.imported)

/-- Property `Delta.is_exporting`: `exported >= 0.001`. -/
def Delta.is_exporting (d : Delta) : Bool :=
  decide ((1 / 1000 : ℚ) ≤ d.exported)

/-- Property `Delta.as_parasitic_load`:
`(exported - imported - charge) / total_hours`. -/
def Delta.as_parasitic_load (d : Delta) : Option ℚ :=
  fdiv (d.exported - d.imported - d.charge) d.total_hours

/-- Method `Delta.charging_efficiency`:
`charge / (imported - exported - parasitic_load * total_hours)`. -/
def Delta.charging_efficiency (d : Delta) (parasitic_load : ℚ) : Option ℚ :=
  fdiv d.charge (d.imported - d.exported - parasitic_load * d.total_hours)

/-- Method `Delta.discharging_efficiency`:
`(imported - exported) / (charge - parasitic_load * total_hours)`. -/
def Delta.discharging_efficiency (d : Delta) (parasitic_load : ℚ) : Option ℚ :=
  fdiv (d.imported - d.exported) (d.charge - parasitic_load * d.total_hours)

/-- Dataclass `State`: `timestamp` (seconds since epoch), `residual_energy`,
`total_import`, `total_export` (kWh). -/
structure State where
  timestamp : ℚ
  residual_energy : ℚ
  total_import : ℚ
  total_export : ℚ
deriving DecidableEq

/-- Method `State.__sub__`: `b.sub a` models `b - a`, fieldwise subtraction
into a `Delta`. -/
def State.sub (b a : State) : Delta :=
  ⟨b.timestamp - a.timestamp, b.residual_energy - a.residual_energy,
   b.total_import - a.total_import, b.total_export - a.total_export⟩

/-- The validity guard of `differentiate`: the pair `(a, b)` of adjacent
states yields a delta only when the timestamp strictly increases and both
cumulative counters are non-decreasing. -/
def validPair (a b : State) : Bool :=
  decide (a.timestamp < b.timestamp) &&
  decide (a.total_import ≤ b.total_import) &&
  decide (a.total_export ≤ b.total_export)

/-- Function `differentiate`: iterates over `pairwise(states)`, i.e. every
adjacent pair of the input, yielding `to_state - from_state` for each pair
that passes the validity guard and silently yielding nothing otherwise. -/
def differentiate : List State → List Delta
  | a :: b :: rest =>
      (if validPair a b then [State.sub b a] else []) ++ differentiate (b :: rest)
  | _ => []

/-- Adjacent pairs of a list, in order: what Python's `pairwise` iterates. -/
def adjacentPairs (l : List State) : List (State × State) :=
  l.zip l.tail

/-- The classification decision in the loop of `main` (lines 147–163),
written as the single pure function the spec calls `classify`. -/
def classify (d : Delta) : Mode :=
  if d.is_importing then
    if d.is_exporting then Mode.mixed else Mode.charging
  else
    if d.is_exporting then Mode.discharging
    else if d.charge ≤ 0 then Mode.idling
    else Mode.charging

/-- The four per-mode accumulators of `main`. -/
structure Stats where
  charging : Delta
  discharging : Delta
  idling : Delta
  mixed : Delta
deriving DecidableEq

/-- One iteration of the classification loop: the delta is added to exactly
the accumulator selected by `classify`. -/
def step (s : Stats) (d : Delta) : Stats :=
  match classify d with
  | Mode.charging => ⟨s.charging.add d, s.discharging, s.idling, s.mixed⟩
  | Mode.discharging => ⟨s.charging, s.discharging.add d, s.idling, s.mixed⟩
  | Mode.idling => ⟨s.charging, s.discharging, s.idling.add d, s.mixed⟩
  | Mode.mixed => ⟨s.charging, s.discharging, s.idling, s.mixed.add d⟩

/-- The whole classification loop of `main`: fold `step` over the deltas
starting from four default-constructed (zero) accumulators. -/
def aggregate (deltas : List Delta) : Stats :=
  deltas.foldl step ⟨Delta.zero, Delta.zero, Delta.zero, Delta.zero⟩

/-- Component-wise grand total of the four accumulators. -/
def Stats.total (s : Stats) : Delta :=
  ((s.charging.add s.discharging).add s.idling).add s.mixed

/-- Sum of a list of deltas under `Delta.add`, starting from the zero delta. -/
def sumDeltas (l : List Delta) : Delta :=
  l.foldl Delta.add Delta.zero

/-- The estimated parameters printed by `main` (lines 195–198). -/
structure Parameters where
  parasitic_load : ℚ
  charging_efficiency : ℚ
  discharging_efficiency : ℚ
  round_trip_efficiency : ℚ
deriving DecidableEq

/-- The parameter-estimation tail of `main` (lines 185–198): compute the
parasitic load from the idling aggregate, the two efficiencies from the
charging and discharging aggregates, and print the round-trip efficiency as
the product `charging_efficiency * discharging_efficiency`; `none` models an
uncaught `ZeroDivisionError` from any of the three divisions. -/
def estimate (deltas : List Delta) : Option Parameters :=
  match (aggregate deltas).idling.as_parasitic_load with
  | none => none
  | some p =>
    match (aggregate deltas).charging.charging_efficiency p with
    | none => none
    | some ce =>
      match (aggregate deltas).discharging.discharging_efficiency p with
      | none => none
      | some de => some ⟨p, ce, de, ce * de⟩

/-- The only pipeline counts the program exposes: the statistics table header
prints `len(states)` and `len(deltas)` (line 168); no skipped-pair counter
exists anywhere in the source. -/
def reportedCounts (states : List State) : Nat × Nat :=
  (states.length, (differentiate states).length)

/-- Modelled from the spec: the number of skipped pairs, i.e. adjacent pairs
rejected by the validity guard. The source computes no such count; the spec
(§4.1, §8) requires a `skipped_pairs` diagnostic, so it is defined here from
the spec's words for comparison with what the code reports. -/
def skippedPairs (l : List State) : Nat :=
  ((adjacentPairs l).filter (fun p => !(validPair p.1 p.2))).length

/-- A four-state sequence whose single invalid adjacent pair is the middle
one, where `total_import` decreases (2 → 1). -/
def statesWithOneBadPair : List State :=
  [⟨0, 0, 0, 0⟩, ⟨3600, 1, 2, 0⟩, ⟨7200, 1, 1, 0⟩, ⟨10800, 0, 2, 1⟩]

/-- A three-state sequence whose middle state is anomalous: both adjacent
pairs are invalid although the outer pair would have been valid. -/
def anomalousMiddle : List State :=
  [⟨0, 0, 0, 0⟩, ⟨-100, 0, 99, 0⟩, ⟨3600, 0, 1, 0⟩]

/-- A four-state sequence where the first and third adjacent pairs are valid
and the middle one is not, so the two emitted deltas do not chain. -/
def nonChaining : List State :=
  [⟨0, 0, 0, 0⟩, ⟨3600, 0, 1, 0⟩, ⟨3000, 0, 1, 0⟩, ⟨7200, 0, 2, 0⟩]

lemma differentiate_cons_cons (a b : State) (rest : List State) :
    differentiate (a :: b :: rest) =
      (if validPair a b then [State.sub b a] else []) ++ differentiate (b :: rest) := rfl

lemma differentiate_eq_filter :
    ∀ l : List State,
      differentiate l =
        ((adjacentPairs l).filter (fun p => validPair p.1 p.2)).map
          (fun p => State.sub p.2 p.1)
  | [] => rfl
  | [_] => rfl
  | a :: b :: rest => by
    rw [differentiate_cons_cons, differentiate_eq_filter (b :: rest)]
    simp only [adjacentPairs, List.tail_cons, List.zip_cons_cons, List.filter_cons]
    by_cases h : validPair a b <;> simp [h]

lemma validPair_iff (a b : State) :
    validPair a b = true ↔
      a.timestamp < b.timestamp ∧ a.total_import ≤ b.total_import ∧
        a.total_export ≤ b.total_export := by
  simp [validPair, and_assoc]

/-- C7: Delta addition is associative and commutative, and the
default-constructed all-zero Delta is a two-sided identity for it, so Deltas
form a commutative monoid under `Delta.add`. -/
theorem delta_add_comm_monoid :
    (∀ a b c : Delta, (a.add b).add c = a.add (b.add c)) ∧
    (∀ a b : Delta, a.add b = b.add a) ∧
    (∀ a : Delta, Delta.zero.add a = a) ∧
    (∀ a : Delta, a.add Delta.zero = a) := by
  refine ⟨fun a b c => ?_, fun a b => ?_, fun a => ?_, fun a => ?_⟩
  · simp only [Delta.add, Delta.mk.injEq]
    exact ⟨by ring, by ring, by ring, by ring⟩
  · simp only [Delta.add, Delta.mk.injEq]
    exact ⟨by ring, by ring, by ring, by ring⟩
  · cases a
    simp [Delta.add, Delta.zero]
  · cases a
    simp [Delta.add, Delta.zero]

/-- C3: the Differencer emits one Delta per adjacent pair exactly when the
pair passes the validity rule (strictly increasing timestamp, and both the
counters of imported and exported energy are non-decreasing); invalid pairs
are skipped with no error (the
function is total and simply contributes nothing for them); each emitted
Delta's fields are the component-wise State differences. -/
theorem differentiate_spec :
    (∀ states : List State,
       differentiate states =
         ((adjacentPairs states).filter (fun p => validPair p.1 p.2)).map
           (fun p => State.sub p.2 p.1)) ∧
    (∀ a b : State,
       validPair a b = true ↔
         a.timestamp < b.timestamp ∧ a.total_import ≤ b.total_import ∧
           a.total_export ≤ b.total_export) ∧
    (∀ a b : State,
       State.sub b a =
         ⟨b.timestamp - a.timestamp, b.residual_energy - a.residual_energy,
          b.total_import - a.total_import, b.total_export - a.total_export⟩) :=
  ⟨differentiate_eq_filter, validPair_iff, fun _ _ => rfl⟩

/-- C4: every Delta emitted by the Differencer has strictly positive duration
and non-negative imported and exported energies. -/
theorem differentiate_invariant (l : List State) (d : Delta)
    (h : d ∈ differentiate l) :
    0 < d.duration ∧ 0 ≤ d.imported ∧ 0 ≤ d.exported := by
  rw [differentiate_eq_filter] at h
  simp only [List.mem_map, List.mem_filter] at h
  obtain ⟨⟨a, b⟩, ⟨-, hvalid⟩, rfl⟩ := h
  rw [validPair_iff] at hvalid
  exact ⟨sub_pos.mpr hvalid.1, sub_nonneg.mpr hvalid.2.1, sub_nonneg.mpr hvalid.2.2⟩

/-- Witness for C4 at a concrete two-state sequence. -/
theorem differentiate_invariant_witness :
    (⟨3600, 1, 2, 0⟩ : Delta) ∈ differentiate [⟨0, 0, 0, 0⟩, ⟨3600, 1, 2, 0⟩] ∧
    (0 < (3600 : ℚ) ∧ 0 ≤ (2 : ℚ) ∧ 0 ≤ (0 : ℚ)) :=
  ⟨by norm_num [differentiate, validPair, State.sub],
   differentiate_invariant [⟨0, 0, 0, 0⟩, ⟨3600, 1, 2, 0⟩] ⟨3600, 1, 2, 0⟩
     (by norm_num [differentiate, validPair, State.sub])⟩

/-- C10: validity is checked per adjacent pair against the immediate
predecessor — after any pair `(a, b)`, valid or not, the traversal continues
with `b` as the new predecessor; concretely, one anomalous middle state can
suppress both of its deltas even though the outer pair would have been valid,
and the two deltas emitted around a skipped pair come from non-chaining pairs
(the second one's source pair does not start at the first one's end state). -/
theorem skip_semantics :
    (∀ (a b : State) (rest : List State),
       differentiate (a :: b :: rest) =
         (if validPair a b then [State.sub b a] else []) ++ differentiate (b :: rest)) ∧
    (differentiate anomalousMiddle = [] ∧
       validPair (State.mk 0 0 0 0) (State.mk 3600 0 1 0) = true) ∧
    (differentiate nonChaining =
         [State.sub ⟨3600, 0, 1, 0⟩ ⟨0, 0, 0, 0⟩,
          State.sub ⟨7200, 0, 2, 0⟩ ⟨3000, 0, 1, 0⟩] ∧
       (⟨3600, 0, 1, 0⟩ : State) ≠ ⟨3000, 0, 1, 0⟩) :=
  ⟨differentiate_cons_cons,
   ⟨by norm_num [anomalousMiddle, differentiate, validPair, State.sub],
    by norm_num [validPair]⟩,
   ⟨by norm_num [nonChaining, differentiate, validPair, State.sub],
    by norm_num [State.mk.injEq]⟩⟩

/-- C1: the cumulative-ratio estimator computes exactly the spec's three
formulas, with `duration_hours` being the duration's total seconds divided by
3600, whenever the corresponding divisor is non-zero (a zero divisor raises
`ZeroDivisionError` instead, modelled by `none`). -/
theorem strategyA_formulas (idle ch dis : Delta) (p : ℚ)
    (hI : idle.duration / 3600 ≠ 0)
    (hC : ch.imported - ch.exported - p * (ch.duration / 3600) ≠ 0)
    (hD : dis.charge - p * (dis.duration / 3600) ≠ 0) :
    idle.as_parasitic_load =
      some ((idle.exported - idle.imported - idle.charge) / (idle.duration / 3600)) ∧
    ch.charging_efficiency p =
      some (ch.charge / (ch.imported - ch.exported - p * (ch.duration / 3600))) ∧
    dis.discharging_efficiency p =
      some ((dis.imported - dis.exported) / (dis.charge - p * (dis.duration / 3600))) := by
  unfold Delta.as_parasitic_load Delta.charging_efficiency Delta.discharging_efficiency
    fdiv Delta.total_hours
  rw [if_neg hI, if_neg hC, if_neg hD]
  exact ⟨rfl, rfl, rfl⟩

/-- Witness for C1 at concrete one-hour idling, charging and discharging
aggregates with parasitic load 1. -/
theorem strategyA_formulas_witness :
    Delta.as_parasitic_load ⟨3600, -1, 0, 0⟩ =
      some (((0 : ℚ) - 0 - (-1)) / (3600 / 3600)) ∧
    Delta.charging_efficiency ⟨3600, 1, 2, 0⟩ 1 =
      some ((1 : ℚ) / (2 - 0 - 1 * (3600 / 3600))) ∧
    Delta.discharging_efficiency ⟨3600, -3, 0, 1⟩ 1 =
      some (((0 : ℚ) - 1) / (-3 - 1 * (3600 / 3600))) :=
  strategyA_formulas ⟨3600, -1, 0, 0⟩ ⟨3600, 1, 2, 0⟩ ⟨3600, -3, 0, 1⟩ 1
    (by norm_num) (by norm_num) (by norm_num)

/-- C2: classification is a total deterministic function into the four
modes, and each mode is reached exactly on the spec's guard for it, with
epsilon `1/1000`; the four guards are mutually exclusive and exhaustive
because `classify` is a function. -/
theorem classify_spec (d : Delta) :
    (classify d = Mode.mixed ↔ 1 / 1000 ≤ d.imported ∧ 1 / 1000 ≤ d.exported) ∧
    (classify d = Mode.charging ↔
       (1 / 1000 ≤ d.imported ∧ d.exported < 1 / 1000) ∨
       (d.imported < 1 / 1000 ∧ d.exported < 1 / 1000 ∧ 0 < d.charge)) ∧
    (classify d = Mode.discharging ↔ d.imported < 1 / 1000 ∧ 1 / 1000 ≤ d.exported) ∧
    (classify d = Mode.idling ↔
       d.imported < 1 / 1000 ∧ d.exported < 1 / 1000 ∧ d.charge ≤ 0) := by
  by_cases h1 : (1000 : ℚ)⁻¹ ≤ d.imported
  · by_cases h2 : (1000 : ℚ)⁻¹ ≤ d.exported
    · simp [classify, Delta.is_importing, Delta.is_exporting, decide_eq_true_eq,
        h1, h2, h1.not_lt, h2.not_lt]
    · simp [classify, Delta.is_importing, Delta.is_exporting, decide_eq_true_eq,
        h1, h2, h1.not_lt, not_le.mp h2]
  · by_cases h2 : (1000 : ℚ)⁻¹ ≤ d.exported
    · simp [classify, Delta.is_importing, Delta.is_exporting, decide_eq_true_eq,
        h1, h2, not_le.mp h1, h2.not_lt]
    · by_cases h3 : d.charge ≤ 0
      · simp [classify, Delta.is_importing, Delta.is_exporting, decide_eq_true_eq,
          h1, h2, h3, not_le.mp h1, not_le.mp h2, h3.not_lt]
      · simp [classify, Delta.is_importing, Delta.is_exporting, decide_eq_true_eq,
          h1, h2, h3, not_le.mp h1, not_le.mp h2, not_le.mp h3]

/-- C5: on an empty bucket the estimator does not produce a tagged
"insufficient data" result — the zero aggregate makes the corresponding
divisor zero and the division raises an uncaught `ZeroDivisionError`
(modelled by `none`): concretely, a delta sequence with idling and charging
but no discharging intervals makes the whole estimation raise, and both the
discharging-efficiency and parasitic-load formulas raise on the zero
aggregate. -/
theorem empty_bucket_crash :
    estimate [⟨3600, -1, 0, 0⟩, ⟨3600, 1, 2, 0⟩] = none ∧
    (∀ p : ℚ, Delta.discharging_efficiency Delta.zero p = none) ∧
    Delta.as_parasitic_load Delta.zero = none := by
  refine ⟨?_, fun p => ?_, ?_⟩
  · norm_num [estimate, aggregate, step, classify, Delta.is_importing, Delta.is_exporting,
      Delta.add, Delta.zero, Delta.as_parasitic_load, Delta.charging_efficiency,
      Delta.discharging_efficiency, Delta.total_hours, fdiv]
  · simp [Delta.discharging_efficiency, fdiv, Delta.total_hours, Delta.zero]
  · simp [Delta.as_parasitic_load, fdiv, Delta.total_hours, Delta.zero]

/-- C6: on the four-state sequence whose single invalid pair has a
decreasing `total_import`, the Differencer produces `len(states) − 2`
deltas and exactly one adjacent pair is skipped; however the program's
only exposed counts are `len(states)` and `len(deltas)` from the table
header — no skipped-pairs counter exists in the code. -/
theorem skipped_pair_counts :
    (differentiate statesWithOneBadPair).length = statesWithOneBadPair.length - 2 ∧
    skippedPairs statesWithOneBadPair = 1 ∧
    reportedCounts statesWithOneBadPair = (4, 2) := by
  refine ⟨?_, ?_, ?_⟩ <;>
    norm_num [statesWithOneBadPair, differentiate, validPair, State.sub,
      skippedPairs, adjacentPairs, reportedCounts]

/-- C8: whenever the estimation pipeline completes (no division raised), the
reported round-trip efficiency is exactly the product of the charging and
discharging efficiencies — it is computed at output time from the two
factors and never stored independently. -/
theorem round_trip_product (deltas : List Delta) (ps : Parameters)
    (h : estimate deltas = some ps) :
    ps.round_trip_efficiency = ps.charging_efficiency * ps.discharging_efficiency := by
  obtain ⟨pl, ce0, de0, rt⟩ := ps
  unfold estimate at h
  cases hp : (aggregate deltas).idling.as_parasitic_load with
  | none => simp [hp] at h
  | some p =>
    cases hc : (aggregate deltas).charging.charging_efficiency p with
    | none => simp [hp, hc] at h
    | some ce =>
      cases hd : (aggregate deltas).discharging.discharging_efficiency p with
      | none => simp [hp, hc, hd] at h
      | some de =>
        simp only [hp, hc, hd, Option.some.injEq, Parameters.mk.injEq] at h
        obtain ⟨h1, h2, h3, h4⟩ := h
        subst h2
        subst h3
        exact h4.symm

/-- Witness for C8 at a concrete three-delta run where all divisions
succeed. -/
theorem round_trip_product_witness :
    estimate [⟨3600, -1, 0, 0⟩, ⟨3600, 1, 2, 0⟩, ⟨3600, -3, 0, 1⟩] =
      some ⟨1, 1, 1 / 4, 1 / 4⟩ ∧
    Parameters.round_trip_efficiency ⟨1, 1, 1 / 4, 1 / 4⟩ =
      Parameters.charging_efficiency ⟨1, 1, 1 / 4, 1 / 4⟩ *
        Parameters.discharging_efficiency ⟨1, 1, 1 / 4, 1 / 4⟩ := by
  have hEst : estimate [⟨3600, -1, 0, 0⟩, ⟨3600, 1, 2, 0⟩, ⟨3600, -3, 0, 1⟩] =
      some ⟨1, 1, 1 / 4, 1 / 4⟩ := by
    norm_num [estimate, aggregate, step, classify, Delta.is_importing, Delta.is_exporting,
      Delta.add, Delta.zero, Delta.as_parasitic_load, Delta.charging_efficiency,
      Delta.discharging_efficiency, Delta.total_hours, fdiv]
  exact ⟨hEst, round_trip_product _ _ hEst⟩

lemma step_total (s : Stats) (d : Delta) : (step s d).total = s.total.add d := by
  cases s
  unfold step
  cases hm : classify d <;>
    simp only [Stats.total, Delta.add, Delta.mk.injEq] <;>
    exact ⟨by ring, by ring, by ring, by ring⟩

lemma foldl_step_total (l : List Delta) :
    ∀ s : Stats, (l.foldl step s).total = l.foldl Delta.add s.total := by
  induction l with
  | nil => intro s; rfl
  | cons d t ih =>
    intro s
    rw [List.foldl_cons, List.foldl_cons, ih, step_total]

/-- C9: each delta is added to exactly one of the four accumulators (every
loop iteration grows the grand total by exactly that delta), so the
component-wise sum of the four accumulators equals the component-wise sum of
all input deltas. -/
theorem aggregate_partition :
    (∀ (s : Stats) (d : Delta), (step s d).total = s.total.add d) ∧
    (∀ l : List Delta,
       ((((aggregate l).charging.add (aggregate l).discharging).add
           (aggregate l).idling).add (aggregate l).mixed) = sumDeltas l) := by
  refine ⟨step_total, fun l => ?_⟩
  show (aggregate l).total = sumDeltas l
  have h0 : (Stats.mk Delta.zero Delta.zero Delta.zero Delta.zero).total = Delta.zero := by
    simp [Stats.total, Delta.add, Delta.zero]
  unfold aggregate sumDeltas
  rw [foldl_step_total, h0]

end Fennec
